import Mathlib

/-!
# muniverse-agent: the `Env` adapter (`env.go`)

A shallow embedding of `Env.Reset` and `Env.Step` and proofs of the
properties of the episode orchestrator: truncation, reward scaling,
error propagation, and the timestep counter.

## Modelling choices

* `Env` in Go holds three collaborators behind interfaces (`RawEnv`,
  `Actor`, `Observer`).  Their code is not part of this program, and the
  adapter depends on them only through the values their methods return.
  Each call of `Reset`/`Step` therefore takes a record (`ResetWorld`,
  `StepWorld`) giving what each collaborator method answers during that
  call.  Every method is called at most once per call of `Reset`/`Step`,
  so one answer per method is enough; quantifying over all records
  quantifies over all collaborator behaviours.
* The mutable fields of `*Env` (`timestep`, `joiner`) are passed
  explicitly: every operation returns the `Env` after the call.
* Each operation also returns the list of collaborator calls it made, in
  order (`calls`).  This is ghost data used to state that no later stage
  runs after a failure; it has no counterpart in the Go results.
* `float64` is an abstract carrier `F` with the two operations `Step`
  uses (`*` and `!= 0`), so the theorems hold for any interpretation of
  them, IEEE-754 included.
* Go `int` is modelled as `Int`, with `timestep++` wrapping to 64 bits
  (`wrapInt`).
* Go `error` is `Option (Error E)`, `none` being `nil`.
* `log.Println` calls are omitted.
-/

namespace MuniverseAgent

/-! ## Machine integers -/

/-- Largest value of a Go `int` (64-bit targets). -/
def maxInt : Int := 9223372036854775807

/-- Smallest value of a Go `int` (64-bit targets). -/
def minInt : Int := -9223372036854775808

/-- Two's-complement wrap-around of a mathematical integer into the
range of a 64-bit Go `int`. -/
def wrapInt (x : Int) : Int :=
  (x + 9223372036854775808) % 18446744073709551616 - 9223372036854775808

/-- The increment `t++` on a 64-bit Go `int`. -/
def incr (t : Int) : Int := wrapInt (t + 1)

/-! ## Floating point -/

/-- The `float64` operations used by `Env.Step`: the product `x * y` and
the comparison `x != 0`. -/
structure Float64 (F : Type) where
  /-- Product `x * y` -/
  mul : F → F → F
  /-- Comparison `x != 0` -/
  neZero : F → Bool

/-! ## Errors -/

/-- Go `error` values.  `ext` is any error value produced outside this
file; `ctx` is `*essentials.CtxError{Context, Original}`. -/
inductive Error (E : Type) where
  | ext : E → Error E
  | ctx : String → Error E → Error E
deriving DecidableEq, Repr

/-- The function `essentials.AddCtx` of the library
`github.com/unixpickle/essentials`, after its documentation: `nil` stays
`nil`, any other error is wrapped in a `CtxError` carrying the context
string.
`essentials.AddCtxTo(ctx, &err)` stores `AddCtx(ctx, err)` into `err`. -/
def AddCtx {E : Type} (ctx : String) : Option (Error E) → Option (Error E)
  | none => none
  | some err => some (Error.ctx ctx err)

/-! ## Collaborators -/

/-- What `RawEnv.Step` returns: `(reward, done, err)`. -/
structure RawStep (F E : Type) where
  reward : F
  done : Bool
  err : Option (Error E)

/-- Answers of the collaborators during one call of `Env.Reset`.
`O` is the raw observation type (`*chrome.Obs` behind `muniverse.Obs`). -/
structure ResetWorld (F E O : Type) where
  /-- Result of `RawEnv.Reset()` -/
  rawReset : Option (Error E)
  /-- Result of `RawEnv.Observe()` -/
  rawObserve : Except (Error E) O
  /-- Result of `Observer.ObsVec(rawObs)` -/
  obsVec : O → Except (Error E) (List F)

/-- Answers of the collaborators during one call of `Env.Step`.
`V` is the type of input events. -/
structure StepWorld (F E O V : Type) where
  /-- Result of `Actor.Events(action)` -/
  actorEvents : List F → List V
  /-- Result of `RawEnv.Step(frameTime, events...)` -/
  rawStep : Int → List V → RawStep F E
  /-- Result of `RawEnv.Observe()` -/
  rawObserve : Except (Error E) O
  /-- Result of `Observer.ObsVec(rawObs)` -/
  obsVec : O → Except (Error E) (List F)

/-- The two methods of `*ObsJoiner` that `Env` calls, over a joiner
state `J`. -/
structure Joiner (J F : Type) where
  /-- Method `Reset(obs)` -/
  Reset : J → List F → J
  /-- Method `Step(obs)`, returning the new state and the joined vector -/
  Step : J → List F → J × List F

/-- A call made to a collaborator (ghost data). -/
inductive Call (F O V : Type) where
  | actorReset : Call F O V
  | actorEvents : List F → Call F O V
  | rawReset : Call F O V
  | rawObserve : Call F O V
  | rawStep : Int → List V → Call F O V
  | obsVec : O → Call F O V
  | joinerReset : List F → Call F O V
  | joinerStep : List F → Call F O V
deriving DecidableEq, Repr

/-! ## The adapter -/

/-- The fields of the Go struct `Env` other than the collaborators. -/
structure Env (F J : Type) where
  RewardScale : F
  FrameTime : Int
  MaxSteps : Int
  timestep : Int
  joiner : J

/-- Results of `Env.Reset`: `(obs, err)`, the receiver after the call,
and the calls made. -/
structure ResetResult (F E O V J : Type) where
  env : Env F J
  obs : List F
  err : Option (Error E)
  calls : List (Call F O V)

/-- Results of `Env.Step`: `(obs, reward, done, err)`, the receiver
after the call, and the calls made. -/
structure StepResult (F E O V J : Type) where
  env : Env F J
  obs : List F
  reward : F
  done : Bool
  err : Option (Error E)
  calls : List (Call F O V)

section Adapter

variable {F E O V J : Type}

/-- The method `Env.Reset` (env.go, lines 67-95).  The named result
`obs` starts as `nil` (`[]`); the deferred `AddCtxTo("reset", &err)`
runs on every return. -/
def Env.Reset (jn : Joiner J F) (e : Env F J) (w : ResetWorld F E O) :
    ResetResult F E O V J :=
  -- e.Actor.Reset(); e.timestep = 0
  let e1 : Env F J := { e with timestep := 0 }
  -- err = e.RawEnv.Reset()
  match w.rawReset with
  | some err =>
    { env := e1, obs := [], err := AddCtx "reset" (some err),
      calls := [Call.actorReset, Call.rawReset] }
  | none =>
    -- rawObs, err := e.RawEnv.Observe()
    match w.rawObserve with
    | Except.error err =>
      { env := e1, obs := [], err := AddCtx "reset" (some err),
        calls := [Call.actorReset, Call.rawReset, Call.rawObserve] }
    | Except.ok rawObs =>
      -- obsVec, err := e.Observer.ObsVec(rawObs)
      match w.obsVec rawObs with
      | Except.error err =>
        { env := e1, obs := [], err := AddCtx "reset" (some err),
          calls := [Call.actorReset, Call.rawReset, Call.rawObserve,
                    Call.obsVec rawObs] }
      | Except.ok obsVec =>
        -- e.joiner.Reset(obsVec); obs = e.joiner.Step(obsVec)
        let j1 := jn.Reset e1.joiner obsVec
        let r := jn.Step j1 obsVec
        { env := { e1 with joiner := r.1 }, obs := r.2,
          err := AddCtx "reset" none,
          calls := [Call.actorReset, Call.rawReset, Call.rawObserve,
                    Call.obsVec rawObs, Call.joinerReset obsVec,
                    Call.joinerStep obsVec] }

/-- The reward after lines 105-107 of env.go:
`if e.RewardScale != 0 { reward *= e.RewardScale }`. -/
def scaleReward (fl : Float64 F) (scale reward : F) : F :=
  if fl.neZero scale then fl.mul reward scale else reward

/-- The method `Env.Step` (env.go, lines 98-127).  The named result
`obs` starts as `nil` (`[]`). -/
def Env.Step (fl : Float64 F) (jn : Joiner J F) (e : Env F J)
    (action : List F) (w : StepWorld F E O V) : StepResult F E O V J :=
  -- events := e.Actor.Events(action)
  let events := w.actorEvents action
  -- reward, done, err = e.RawEnv.Step(e.FrameTime, events...)
  let raw := w.rawStep e.FrameTime events
  match raw.err with
  | some err =>
    { env := e, obs := [], reward := raw.reward, done := raw.done,
      err := some err,
      calls := [Call.actorEvents action, Call.rawStep e.FrameTime events] }
  | none =>
    let reward := scaleReward fl e.RewardScale raw.reward
    -- rawObs, err := e.RawEnv.Observe()
    match w.rawObserve with
    | Except.error err =>
      { env := e, obs := [], reward := reward, done := raw.done,
        err := some err,
        calls := [Call.actorEvents action,
                  Call.rawStep e.FrameTime events, Call.rawObserve] }
    | Except.ok rawObs =>
      -- obsVec, err := e.Observer.ObsVec(rawObs)
      match w.obsVec rawObs with
      | Except.error err =>
        { env := e, obs := [], reward := reward, done := raw.done,
          err := some err,
          calls := [Call.actorEvents action,
                    Call.rawStep e.FrameTime events, Call.rawObserve,
                    Call.obsVec rawObs] }
      | Except.ok obsVec =>
        -- obs = e.joiner.Step(obsVec)
        let r := jn.Step e.joiner obsVec
        -- e.timestep++
        let t := incr e.timestep
        -- if e.timestep >= e.MaxSteps { done = true }
        let done := if t ≥ e.MaxSteps then true else raw.done
        { env := { e with joiner := r.1, timestep := t }, obs := r.2,
          reward := reward, done := done, err := none,
          calls := [Call.actorEvents action,
                    Call.rawStep e.FrameTime events, Call.rawObserve,
                    Call.obsVec rawObs, Call.joinerStep obsVec] }

/-- A sequence of `Env.Step` calls, each on the receiver left by the
previous one; returns the result of every call, in order. -/
def Env.Steps (fl : Float64 F) (jn : Joiner J F) (e : Env F J) :
    List (List F × StepWorld F E O V) → List (StepResult F E O V J)
  | [] => []
  | s :: rest =>
    let r := Env.Step fl jn e s.1 s.2
    r :: Env.Steps fl jn r.env rest

/-- What `RawEnv.Step` returns during a call `Env.Step(action)`: the
adapter passes it `e.FrameTime` and the events of `Actor.Events`. -/
def StepWorld.raw (w : StepWorld F E O V) (e : Env F J) (action : List F) :
    RawStep F E :=
  w.rawStep e.FrameTime (w.actorEvents action)

end Adapter

/-! ## The history joiner -/

/-- Modelled from the spec: the type `ObsJoiner`, which `NewEnv` builds
as `&ObsJoiner{HistorySize: spec.HistorySize}` and whose source file is
not available.  It holds the configured history size H and the window
of feature vectors, oldest first. -/
structure ObsJoiner (F : Type) where
  HistorySize : Nat
  history : List (List F)

/-- Modelled from the spec: the method `ObsJoiner.Reset`, whose source
is not available.  It "initializes the window by replicating `vector` H
times" and "discards any prior window contents". -/
def ObsJoiner.Reset {F : Type} (o : ObsJoiner F) (vector : List F) :
    ObsJoiner F :=
  { o with history := List.replicate o.HistorySize vector }

/-- Modelled from the spec: the method `ObsJoiner.Step`, whose source is
not available.  It "evicts the oldest entry and appends `vector`", then
"returns the concatenation of all H entries in chronological order". -/
def ObsJoiner.Step {F : Type} (o : ObsJoiner F) (vector : List F) :
    ObsJoiner F × List F :=
  let window := o.history.drop 1 ++ [vector]
  ({ o with history := window }, window.flatten)

/-- The joiner of the spec as the capability `Env` uses. -/
def obsJoiner {F : Type} : Joiner (ObsJoiner F) F :=
  { Reset := ObsJoiner.Reset, Step := ObsJoiner.Step }

/-- The last `n` elements of a list, in order. -/
def lastN {α : Type} (n : Nat) (l : List α) : List α :=
  l.drop (l.length - n)

/-- During a call the observer produces the feature vector `v`:
`RawEnv.Observe` succeeds and `Observer.ObsVec` succeeds on its result
with `v`. -/
def observes {F E O : Type} (rawObserve : Except (Error E) O)
    (obsVec : O → Except (Error E) (List F)) (v : List F) : Prop :=
  ∃ rawObs, rawObserve = Except.ok rawObs ∧ obsVec rawObs = Except.ok v

/-! ## Sequences of calls -/

/-- One call made by the user of the adapter, with the answers the
collaborators give during it. -/
inductive Op (F E O V : Type) where
  | reset : ResetWorld F E O → Op F E O V
  | step : List F → StepWorld F E O V → Op F E O V

/-- What the caller sees of a finished call: which method it was, and
whether the returned `err` was non-nil. -/
structure Outcome where
  isReset : Bool
  failed : Bool
deriving DecidableEq, Repr

/-- Performs one call; returns the receiver after it and its outcome. -/
def Env.call {F E O V J : Type} (fl : Float64 F) (jn : Joiner J F)
    (e : Env F J) : Op F E O V → Env F J × Outcome
  | Op.reset w =>
    let r : ResetResult F E O V J := Env.Reset jn e w
    (r.env, { isReset := true, failed := r.err.isSome })
  | Op.step a w =>
    let r := Env.Step fl jn e a w
    (r.env, { isReset := false, failed := r.err.isSome })

/-- Performs a sequence of calls; returns the final receiver and the
outcomes in order. -/
def Env.run {F E O V J : Type} (fl : Float64 F) (jn : Joiner J F)
    (e : Env F J) : List (Op F E O V) → Env F J × List Outcome
  | [] => (e, [])
  | op :: rest =>
    let c := Env.call fl jn e op
    let r := Env.run fl jn c.1 rest
    (r.1, c.2 :: r.2)

/-- Number of successful `Step` calls after the most recent `Reset` call
in a log of outcomes. -/
def stepsSinceReset (log : List Outcome) : Nat :=
  ((log.reverse.takeWhile (fun o => !o.isReset)).filter
    (fun o => !o.failed)).length

/-! ## A concrete scenario

History size 3, `MaxSteps` 2, reward scale 2; rewards are rationals, raw
observations and events are numbers, external errors are strings. -/

/-- Exact rational arithmetic as an interpretation of the two `float64`
operations. -/
def ratFloat : Float64 ℚ :=
  { mul := fun x y => x * y, neZero := fun x => decide (x ≠ 0) }

/-- An adapter with H = 3, `MaxSteps` = 2, `RewardScale` = 2, in an
arbitrary prior state (timestep 7, a stale window). -/
def demoEnv : Env ℚ (ObsJoiner ℚ) :=
  { RewardScale := 2, FrameTime := 100, MaxSteps := 2, timestep := 7,
    joiner := { HistorySize := 3, history := [[9]] } }

/-- A `Reset` during which every collaborator succeeds and the observer
produces `v`. -/
def okReset (v : List ℚ) : ResetWorld ℚ String Nat :=
  { rawReset := none, rawObserve := Except.ok 0,
    obsVec := fun _ => Except.ok v }

/-- A `Reset` during which `RawEnv.Observe` fails. -/
def badReset : ResetWorld ℚ String Nat :=
  { rawReset := none, rawObserve := Except.error (Error.ext "no frame"),
    obsVec := fun _ => Except.ok [] }

/-- A `Step` during which every collaborator succeeds: the raw
environment answers `(reward, done, nil)` and the observer produces `v`. -/
def okStep (reward : ℚ) (done : Bool) (v : List ℚ) :
    StepWorld ℚ String Nat Nat :=
  { actorEvents := fun _ => [], rawStep := fun _ _ => ⟨reward, done, none⟩,
    rawObserve := Except.ok 0, obsVec := fun _ => Except.ok v }

/-- A `Step` during which `RawEnv.Step` answers `(reward, done, nil)` and
the observer then fails. -/
def badObsStep (reward : ℚ) (done : Bool) : StepWorld ℚ String Nat Nat :=
  { actorEvents := fun _ => [], rawStep := fun _ _ => ⟨reward, done, none⟩,
    rawObserve := Except.ok 0,
    obsVec := fun _ => Except.error (Error.ext "bad pixels") }

/-- A `Step` during which `RawEnv.Step` itself fails. -/
def badRawStep : StepWorld ℚ String Nat Nat :=
  { actorEvents := fun _ => [],
    rawStep := fun _ _ => ⟨0, false, some (Error.ext "disconnected")⟩,
    rawObserve := Except.ok 0, obsVec := fun _ => Except.ok [] }

/-- Two successful steps with raw reward 1/2 and raw `done = false`. -/
def demoSteps : List (List ℚ × StepWorld ℚ String Nat Nat) :=
  [([], okStep (1 / 2) false [2, 2, 2]), ([], okStep (1 / 2) false [3, 3, 3])]

/-- A mixed sequence of calls: a `Reset` that fails, a `Reset` that
succeeds, a successful `Step`, a failing `Step`, a successful `Step`. -/
def demoOps : List (Op ℚ String Nat Nat) :=
  [Op.reset badReset, Op.reset (okReset [1]),
   Op.step [] (okStep (1 / 2) false [2]), Op.step [] badRawStep,
   Op.step [] (okStep (1 / 2) false [3])]

/-! ## Basic facts -/

section Facts

variable {F E O V J : Type}

theorem wrapInt_of_range {x : Int} (hlo : minInt ≤ x) (hhi : x ≤ maxInt) :
    wrapInt x = x := by
  unfold wrapInt
  unfold minInt at hlo
  unfold maxInt at hhi
  omega

theorem incr_of_lt {t : Int} (hlo : minInt ≤ t) (hhi : t < maxInt) :
    incr t = t + 1 := by
  unfold incr
  apply wrapInt_of_range
  · unfold minInt at *; omega
  · unfold maxInt at *; omega

/-- A successful `Env.Step`: the three fallible stages succeeded, and the
results are those of the last branch of the function. -/
theorem Env.Step_of_ok (fl : Float64 F) (jn : Joiner J F) (e : Env F J)
    (a : List F) (w : StepWorld F E O V)
    (h : (Env.Step fl jn e a w).err = none) :
    (w.raw e a).err = none ∧
    ∃ rawObs obsVec, w.rawObserve = Except.ok rawObs ∧
      w.obsVec rawObs = Except.ok obsVec ∧
      Env.Step fl jn e a w =
        { env := { e with joiner := (jn.Step e.joiner obsVec).1,
                          timestep := incr e.timestep },
          obs := (jn.Step e.joiner obsVec).2,
          reward := scaleReward fl e.RewardScale (w.raw e a).reward,
          done := if incr e.timestep ≥ e.MaxSteps then true
                  else (w.raw e a).done,
          err := none,
          calls := [Call.actorEvents a,
                    Call.rawStep e.FrameTime (w.actorEvents a),
                    Call.rawObserve, Call.obsVec rawObs,
                    Call.joinerStep obsVec] } := by
  unfold StepWorld.raw
  cases hr : (w.rawStep e.FrameTime (w.actorEvents a)).err with
  | some x => simp [Env.Step, hr] at h
  | none =>
    cases ho : w.rawObserve with
    | error x => simp [Env.Step, hr, ho] at h
    | ok rawObs =>
      cases hv : w.obsVec rawObs with
      | error x => simp [Env.Step, hr, ho, hv] at h
      | ok obsVec =>
        exact ⟨rfl, rawObs, obsVec, rfl, hv, by simp [Env.Step, hr, ho, hv]⟩

/-- The four ways a call of `Env.Step` can go, with its results in each. -/
theorem Env.Step_cases (fl : Float64 F) (jn : Joiner J F) (e : Env F J)
    (a : List F) (w : StepWorld F E O V) :
    (∃ x, (w.raw e a).err = some x ∧
      Env.Step fl jn e a w =
        { env := e, obs := [], reward := (w.raw e a).reward,
          done := (w.raw e a).done, err := some x,
          calls := [Call.actorEvents a,
                    Call.rawStep e.FrameTime (w.actorEvents a)] }) ∨
    (∃ x, (w.raw e a).err = none ∧ w.rawObserve = Except.error x ∧
      Env.Step fl jn e a w =
        { env := e, obs := [],
          reward := scaleReward fl e.RewardScale (w.raw e a).reward,
          done := (w.raw e a).done, err := some x,
          calls := [Call.actorEvents a,
                    Call.rawStep e.FrameTime (w.actorEvents a),
                    Call.rawObserve] }) ∨
    (∃ rawObs x, (w.raw e a).err = none ∧
      w.rawObserve = Except.ok rawObs ∧
      w.obsVec rawObs = Except.error x ∧
      Env.Step fl jn e a w =
        { env := e, obs := [],
          reward := scaleReward fl e.RewardScale (w.raw e a).reward,
          done := (w.raw e a).done, err := some x,
          calls := [Call.actorEvents a,
                    Call.rawStep e.FrameTime (w.actorEvents a),
                    Call.rawObserve, Call.obsVec rawObs] }) ∨
    (∃ rawObs obsVec, (w.raw e a).err = none ∧
      w.rawObserve = Except.ok rawObs ∧
      w.obsVec rawObs = Except.ok obsVec ∧
      Env.Step fl jn e a w =
        { env := { e with joiner := (jn.Step e.joiner obsVec).1,
                          timestep := incr e.timestep },
          obs := (jn.Step e.joiner obsVec).2,
          reward := scaleReward fl e.RewardScale (w.raw e a).reward,
          done := if incr e.timestep ≥ e.MaxSteps then true
                  else (w.raw e a).done,
          err := none,
          calls := [Call.actorEvents a,
                    Call.rawStep e.FrameTime (w.actorEvents a),
                    Call.rawObserve, Call.obsVec rawObs,
                    Call.joinerStep obsVec] }) := by
  unfold StepWorld.raw
  cases hr : (w.rawStep e.FrameTime (w.actorEvents a)).err with
  | some x => exact Or.inl ⟨x, rfl, by simp [Env.Step, hr]⟩
  | none =>
    cases ho : w.rawObserve with
    | error x =>
      exact Or.inr (Or.inl ⟨x, rfl, rfl, by simp [Env.Step, hr, ho]⟩)
    | ok rawObs =>
      cases hv : w.obsVec rawObs with
      | error x =>
        exact Or.inr (Or.inr (Or.inl
          ⟨rawObs, x, rfl, rfl, hv, by simp [Env.Step, hr, ho, hv]⟩))
      | ok obsVec =>
        exact Or.inr (Or.inr (Or.inr
          ⟨rawObs, obsVec, rfl, rfl, hv, by simp [Env.Step, hr, ho, hv]⟩))

/-- The four ways a call of `Env.Reset` can go, with its results in
each. -/
theorem Env.Reset_cases (jn : Joiner J F) (e : Env F J)
    (w : ResetWorld F E O) :
    (∃ x, w.rawReset = some x ∧
      (Env.Reset jn e w : ResetResult F E O V J) =
        { env := { e with timestep := 0 }, obs := [],
          err := some (Error.ctx "reset" x),
          calls := [Call.actorReset, Call.rawReset] }) ∨
    (∃ x, w.rawReset = none ∧ w.rawObserve = Except.error x ∧
      (Env.Reset jn e w : ResetResult F E O V J) =
        { env := { e with timestep := 0 }, obs := [],
          err := some (Error.ctx "reset" x),
          calls := [Call.actorReset, Call.rawReset, Call.rawObserve] }) ∨
    (∃ rawObs x, w.rawReset = none ∧ w.rawObserve = Except.ok rawObs ∧
      w.obsVec rawObs = Except.error x ∧
      (Env.Reset jn e w : ResetResult F E O V J) =
        { env := { e with timestep := 0 }, obs := [],
          err := some (Error.ctx "reset" x),
          calls := [Call.actorReset, Call.rawReset, Call.rawObserve,
                    Call.obsVec rawObs] }) ∨
    (∃ rawObs obsVec, w.rawReset = none ∧
      w.rawObserve = Except.ok rawObs ∧
      w.obsVec rawObs = Except.ok obsVec ∧
      (Env.Reset jn e w : ResetResult F E O V J) =
        { env := { e with
                   timestep := 0,
                   joiner := (jn.Step (jn.Reset e.joiner obsVec) obsVec).1 },
          obs := (jn.Step (jn.Reset e.joiner obsVec) obsVec).2,
          err := none,
          calls := [Call.actorReset, Call.rawReset, Call.rawObserve,
                    Call.obsVec rawObs, Call.joinerReset obsVec,
                    Call.joinerStep obsVec] }) := by
  cases hr : w.rawReset with
  | some x => exact Or.inl ⟨x, rfl, by simp [Env.Reset, hr, AddCtx]⟩
  | none =>
    cases ho : w.rawObserve with
    | error x =>
      exact Or.inr (Or.inl ⟨x, rfl, rfl, by simp [Env.Reset, hr, ho, AddCtx]⟩)
    | ok rawObs =>
      cases hv : w.obsVec rawObs with
      | error x =>
        exact Or.inr (Or.inr (Or.inl
          ⟨rawObs, x, rfl, rfl, hv, by simp [Env.Reset, hr, ho, hv, AddCtx]⟩))
      | ok obsVec =>
        exact Or.inr (Or.inr (Or.inr
          ⟨rawObs, obsVec, rfl, rfl, hv,
            by simp [Env.Reset, hr, ho, hv, AddCtx]⟩))

theorem Env.Step_ok_env (fl : Float64 F) (jn : Joiner J F) (e : Env F J)
    (a : List F) (w : StepWorld F E O V)
    (h : (Env.Step fl jn e a w).err = none) :
    (Env.Step fl jn e a w).env.timestep = incr e.timestep ∧
    (Env.Step fl jn e a w).done =
      (if incr e.timestep ≥ e.MaxSteps then true else (w.raw e a).done) ∧
    (Env.Step fl jn e a w).reward =
      scaleReward fl e.RewardScale (w.raw e a).reward := by
  obtain ⟨_, o, v, _, _, hs⟩ := Env.Step_of_ok fl jn e a w h
  rw [hs]
  exact ⟨rfl, rfl, rfl⟩

/-- Method `Step` never changes the configuration fields. -/
theorem Env.Step_config (fl : Float64 F) (jn : Joiner J F) (e : Env F J)
    (a : List F) (w : StepWorld F E O V) :
    (Env.Step fl jn e a w).env.MaxSteps = e.MaxSteps ∧
    (Env.Step fl jn e a w).env.FrameTime = e.FrameTime ∧
    (Env.Step fl jn e a w).env.RewardScale = e.RewardScale := by
  cases hr : (w.rawStep e.FrameTime (w.actorEvents a)).err with
  | some x => simp [Env.Step, hr]
  | none =>
    cases ho : w.rawObserve with
    | error x => simp [Env.Step, hr, ho]
    | ok rawObs =>
      cases hv : w.obsVec rawObs with
      | error x => simp [Env.Step, hr, ho, hv]
      | ok obsVec => simp [Env.Step, hr, ho, hv]

theorem Env.Steps_cons (fl : Float64 F) (jn : Joiner J F) (e : Env F J)
    (s : List F × StepWorld F E O V)
    (rest : List (List F × StepWorld F E O V)) :
    Env.Steps fl jn e (s :: rest) =
      Env.Step fl jn e s.1 s.2 ::
        Env.Steps fl jn (Env.Step fl jn e s.1 s.2).env rest := rfl

/-- Method `Reset` sets the counter to 0 and keeps the configuration,
whether or not it fails. -/
theorem Env.Reset_config (jn : Joiner J F) (e : Env F J)
    (w : ResetWorld F E O) :
    (Env.Reset jn e w : ResetResult F E O V J).env.FrameTime
      = e.FrameTime ∧
    (Env.Reset jn e w : ResetResult F E O V J).env.MaxSteps
      = e.MaxSteps ∧
    (Env.Reset jn e w : ResetResult F E O V J).env.timestep = 0 := by
  cases hr : w.rawReset with
  | some x => simp [Env.Reset, hr]
  | none =>
    cases ho : w.rawObserve with
    | error x => simp [Env.Reset, hr, ho]
    | ok rawObs =>
      cases hv : w.obsVec rawObs with
      | error x => simp [Env.Reset, hr, ho, hv]
      | ok obsVec => simp [Env.Reset, hr, ho, hv]

/-- Truncation along a run of successful steps whose raw `done` is
always false: the flag is raised exactly on the call that brings the
counter to `MaxSteps`. -/
theorem Env.Steps_done (fl : Float64 F) (jn : Joiner J F) (ft : Int) :
    ∀ (steps : List (List F × StepWorld F E O V)) (e : Env F J),
      e.FrameTime = ft → e.MaxSteps ≤ maxInt → 0 ≤ e.timestep →
      e.timestep + (steps.length : Int) = e.MaxSteps → steps ≠ [] →
      (∀ r ∈ Env.Steps fl jn e steps, r.err = none) →
      (∀ s ∈ steps, (s.2.rawStep ft (s.2.actorEvents s.1)).done = false) →
      (Env.Steps fl jn e steps).map (fun r => r.done) =
        List.replicate (steps.length - 1) false ++ [true] := by
  intro steps
  induction steps with
  | nil => intro e _ _ _ _ hne; exact absurd rfl hne
  | cons s rest ih =>
    intro e hft hmax ht hlen _ hok hraw
    have hok1 : (Env.Step fl jn e s.1 s.2).err = none :=
      hok _ (by simp [Env.Steps])
    obtain ⟨htime, hdone, _⟩ := Env.Step_ok_env fl jn e s.1 s.2 hok1
    obtain ⟨hM, hF, _⟩ := Env.Step_config fl jn e s.1 s.2
    have hinc : incr e.timestep = e.timestep + 1 := by
      apply incr_of_lt
      · unfold minInt; omega
      · simp only [List.length_cons, Nat.cast_add, Nat.cast_one] at hlen
        omega
    have hd : (s.2.raw e s.1).done = false := by
      unfold StepWorld.raw
      rw [hft]
      exact hraw s (by simp)
    simp only [List.length_cons, Nat.cast_add, Nat.cast_one] at hlen
    cases rest with
    | nil =>
      simp only [List.length_nil, Nat.cast_zero] at hlen
      simp [Env.Steps, hdone, hinc]
      omega
    | cons s2 rest2 =>
      have hlt : ¬ (e.timestep + 1 ≥ e.MaxSteps) := by
        simp only [List.length_cons, Nat.cast_add, Nat.cast_one] at hlen
        omega
      have ih1 := ih (Env.Step fl jn e s.1 s.2).env (by rw [hF, hft])
        (by rw [hM]; exact hmax) (by rw [htime, hinc]; omega)
        (by rw [htime, hinc, hM]; omega) (by simp)
        (fun r hr => hok r (by rw [Env.Steps_cons]; exact List.mem_cons_of_mem _ hr))
        (fun s3 hs3 => hraw s3 (List.mem_cons_of_mem _ hs3))
      simp only [Env.Steps, List.map_cons, List.length_cons,
        Nat.add_sub_cancel, List.replicate_succ, List.cons_append]
      rw [hdone, hinc, if_neg hlt, hd]
      congr 1

theorem replicate_drop_one_snoc {α : Type} (n : Nat) (v : α) (h : 1 ≤ n) :
    (List.replicate n v).drop 1 ++ [v] = List.replicate n v := by
  obtain ⟨k, rfl⟩ : ∃ k, n = k + 1 := ⟨n - 1, by omega⟩
  rw [List.replicate_succ, List.drop_one, List.tail_cons]
  exact (List.replicate_succ' k v).symm

/-- Evicting the oldest of the last `n` elements and appending `v` gives
the last `n` elements of the extended list. -/
theorem lastN_drop_one_snoc {α : Type} (n : Nat) (l : List α) (v : α)
    (h1 : 1 ≤ n) (h2 : n ≤ l.length) :
    (lastN n l).drop 1 ++ [v] = lastN n (l ++ [v]) := by
  unfold lastN
  rw [List.drop_drop, List.length_append, List.length_singleton]
  rw [List.drop_append_of_le_length (by omega)]
  congr 2
  omega

/-- The window along a run of successful steps: if it holds the last H
elements of `l` before the run, the step of index `i` returns the last H
elements of `l` followed by the first `i + 1` observed vectors. -/
theorem Env.Steps_obs (fl : Float64 F) :
    ∀ (steps : List (List F × StepWorld F E O V)) (vs : List (List F))
      (e : Env F (ObsJoiner F)) (l : List (List F)),
      e.joiner.history = lastN e.joiner.HistorySize l →
      1 ≤ e.joiner.HistorySize → e.joiner.HistorySize ≤ l.length →
      (∀ r ∈ Env.Steps fl obsJoiner e steps, r.err = none) →
      List.Forall₂ (fun s v => observes s.2.rawObserve s.2.obsVec v)
        steps vs →
      ∀ i, i < steps.length →
        ((Env.Steps fl obsJoiner e steps)[i]?).map (fun r => r.obs)
          = some (lastN e.joiner.HistorySize
              (l ++ vs.take (i + 1))).flatten := by
  intro steps
  induction steps with
  | nil => intro vs e l _ _ _ _ _ i hi; simp at hi
  | cons s rest ih =>
    intro vs e l hhist h1 h2 hok hobs i hi
    cases vs with
    | nil => cases hobs
    | cons v vs2 =>
      rw [List.forall₂_cons] at hobs
      obtain ⟨⟨o, ho, hv⟩, hrest⟩ := hobs
      have hok1 : (Env.Step fl obsJoiner e s.1 s.2).err = none :=
        hok _ (by rw [Env.Steps_cons]; exact List.mem_cons_self _ _)
      obtain ⟨_, o2, v2, ho2, hv2, hs⟩ :=
        Env.Step_of_ok fl obsJoiner e s.1 s.2 hok1
      rw [ho] at ho2
      cases ho2
      rw [hv] at hv2
      cases hv2
      have hwin : e.joiner.history.drop 1 ++ [v]
          = lastN e.joiner.HistorySize (l ++ [v]) := by
        rw [hhist]
        exact lastN_drop_one_snoc _ l v h1 h2
      rw [Env.Steps_cons]
      cases i with
      | zero =>
        simp only [List.getElem?_cons_zero, Option.map_some', List.take_succ_cons,
          List.take_zero]
        rw [hs]
        simp only [obsJoiner, ObsJoiner.Step]
        rw [hwin]
      | succ k =>
        simp only [List.getElem?_cons_succ, List.take_succ_cons]
        have hjoin : (Env.Step fl obsJoiner e s.1 s.2).env.joiner
            = { e.joiner with history := lastN e.joiner.HistorySize (l ++ [v]) } := by
          rw [hs]
          simp only [obsJoiner, ObsJoiner.Step]
          rw [hwin]
        have ih1 := ih vs2 (Env.Step fl obsJoiner e s.1 s.2).env (l ++ [v])
          (by rw [hjoin]) (by rw [hjoin]; exact h1)
          (by rw [hjoin, List.length_append, List.length_singleton]
              exact Nat.le_succ_of_le h2)
          (fun r hr => hok r
            (by rw [Env.Steps_cons]; exact List.mem_cons_of_mem _ hr))
          hrest k (by simpa using hi)
        rw [ih1, hjoin]
        simp only [List.append_assoc, List.singleton_append]

theorem wrapInt_succ (x : Int) : wrapInt (wrapInt x + 1) = wrapInt (x + 1) := by
  unfold wrapInt
  omega

/-- A failing `Env.Step` leaves the receiver as it was. -/
theorem Env.Step_err_env (fl : Float64 F) (jn : Joiner J F) (e : Env F J)
    (a : List F) (w : StepWorld F E O V)
    (h : (Env.Step fl jn e a w).err ≠ none) :
    (Env.Step fl jn e a w).env = e := by
  rcases Env.Step_cases fl jn e a w with
    ⟨x, _, hs⟩ | ⟨x, _, _, hs⟩ | ⟨o, x, _, _, _, hs⟩ | ⟨o, v, _, _, _, hs⟩
  · rw [hs]
  · rw [hs]
  · rw [hs]
  · rw [hs] at h; exact absurd rfl h

theorem Env.run_cons (fl : Float64 F) (jn : Joiner J F) (e : Env F J)
    (op : Op F E O V) (rest : List (Op F E O V)) :
    Env.run fl jn e (op :: rest) =
      ((Env.run fl jn (Env.call fl jn e op).1 rest).1,
       (Env.call fl jn e op).2 ::
         (Env.run fl jn (Env.call fl jn e op).1 rest).2) := rfl

theorem Env.run_snoc (fl : Float64 F) (jn : Joiner J F) :
    ∀ (ops : List (Op F E O V)) (e : Env F J) (op : Op F E O V),
      Env.run fl jn e (ops ++ [op]) =
        ((Env.call fl jn (Env.run fl jn e ops).1 op).1,
         (Env.run fl jn e ops).2 ++
           [(Env.call fl jn (Env.run fl jn e ops).1 op).2]) := by
  intro ops
  induction ops with
  | nil => intro e op; rfl
  | cons o rest ih =>
    intro e op
    rw [List.cons_append, Env.run_cons, ih, Env.run_cons]
    rfl

theorem stepsSinceReset_snoc (log : List Outcome) (o : Outcome) :
    stepsSinceReset (log ++ [o]) =
      if o.isReset then 0
      else stepsSinceReset log + (if o.failed then 0 else 1) := by
  unfold stepsSinceReset
  rw [List.reverse_append, List.reverse_singleton, List.singleton_append,
    List.takeWhile_cons]
  cases hr : o.isReset with
  | true => simp
  | false =>
    cases hf : o.failed with
    | true => simp [hf]
    | false => simp [hf]

/-- After a sequence of calls containing a `Reset`, the counter is the
number of successful steps since the last `Reset`, as a 64-bit `int`. -/
theorem Env.run_timestep (fl : Float64 F) (jn : Joiner J F) (e : Env F J)
    (ops : List (Op F E O V)) (h : ∃ w, Op.reset w ∈ ops) :
    (Env.run fl jn e ops).1.timestep
      = wrapInt (stepsSinceReset (Env.run fl jn e ops).2) := by
  induction ops using List.reverseRecOn with
  | nil =>
    obtain ⟨w, hw⟩ := h
    cases hw
  | append_singleton ops op ih =>
    rw [Env.run_snoc, stepsSinceReset_snoc]
    cases op with
    | reset w =>
      simp only [Env.call, if_true]
      rw [(Env.Reset_config jn (Env.run fl jn e ops).1 w).2.2]
      rfl
    | step a w =>
      have hmem : ∃ w2, Op.reset w2 ∈ ops := by
        obtain ⟨w2, hw2⟩ := h
        rw [List.mem_append] at hw2
        rcases hw2 with hw2 | hw2
        · exact ⟨w2, hw2⟩
        · simp at hw2
      have ih1 := ih hmem
      simp only [Env.call]
      by_cases herr : (Env.Step fl jn (Env.run fl jn e ops).1 a w).err = none
      · rw [(Env.Step_ok_env fl jn _ a w herr).1, ih1]
        simp only [herr, Option.isSome_none, Bool.false_eq_true, if_false]
        unfold incr
        rw [wrapInt_succ]
        congr 1
      · rw [Env.Step_err_env fl jn _ a w herr, ih1]
        have hsome : (Env.Step fl jn (Env.run fl jn e ops).1 a w).err.isSome
            = true := Option.ne_none_iff_isSome.mp herr
        simp only [hsome, if_true, Bool.false_eq_true, if_false,
          Nat.add_zero]

end Facts

/-! ## Claims -/

section Claims

variable {F E O V J : Type}

/-- C1 (truncation determinism).  For every `MaxSteps = M ≥ 1` (a Go
`int`, so `M ≤ maxInt`) and every prior state of the adapter: after a
successful `Env.Reset`, if `Env.Step` is called `M` times in sequence,
every call succeeds, and the raw environment reports `done = false` each
time, then the calls return `done = false` on calls `1..M-1` and
`done = true` on call `M`. -/
theorem truncation_determinism (fl : Float64 F) (jn : Joiner J F)
    (e : Env F J) (rw : ResetWorld F E O)
    (steps : List (List F × StepWorld F E O V))
    (hM : 1 ≤ e.MaxSteps) (hint : e.MaxSteps ≤ maxInt)
    (hreset : (Env.Reset jn e rw : ResetResult F E O V J).err = none)
    (hlen : (steps.length : Int) = e.MaxSteps)
    (hok : ∀ r ∈ Env.Steps fl jn
      (Env.Reset jn e rw : ResetResult F E O V J).env steps, r.err = none)
    (hraw : ∀ s ∈ steps, (s.2.raw e s.1).done = false) :
    (Env.Steps fl jn
      (Env.Reset jn e rw : ResetResult F E O V J).env steps).map
        (fun r => r.done)
      = List.replicate (steps.length - 1) false ++ [true] := by
  have _ := hreset
  have hcfg := Env.Reset_config (V := V) jn e rw
  obtain ⟨hF, hMx, ht⟩ := hcfg
  apply Env.Steps_done fl jn e.FrameTime steps _ hF
  · rw [hMx]; exact hint
  · rw [ht]
  · rw [ht, hMx, zero_add]; exact hlen
  · intro hnil
    rw [hnil] at hlen
    simp at hlen
    omega
  · exact hok
  · exact hraw

/-- Witness for C1 in the concrete scenario (H = 3, `MaxSteps` = 2): the
first step returns `done = false`, the second `done = true`. -/
theorem truncation_determinism_witness :
    (Env.Steps ratFloat obsJoiner
      (Env.Reset obsJoiner demoEnv (okReset [1, 1, 1]) :
        ResetResult ℚ String Nat Nat (ObsJoiner ℚ)).env demoSteps).map
        (fun r => r.done)
      = [false, true] :=
  truncation_determinism ratFloat obsJoiner demoEnv (okReset [1, 1, 1])
    demoSteps (by decide) (by decide) (by rfl) (by rfl) (by decide)
    (by decide)

/-- C2 (reward scaling).  For every successful `Env.Step` with raw reward
`r` returned by `RawEnv.Step`, the returned reward is `r * RewardScale`
when `RewardScale != 0`, and `r` itself when `RewardScale` is zero (a
zero scale is the identity, it does not zero the reward). -/
theorem reward_scaling (fl : Float64 F) (jn : Joiner J F) (e : Env F J)
    (a : List F) (w : StepWorld F E O V)
    (hok : (Env.Step fl jn e a w).err = none) :
    (fl.neZero e.RewardScale = true →
      (Env.Step fl jn e a w).reward
        = fl.mul (w.raw e a).reward e.RewardScale) ∧
    (fl.neZero e.RewardScale = false →
      (Env.Step fl jn e a w).reward = (w.raw e a).reward) := by
  obtain ⟨_, _, hrew⟩ := Env.Step_ok_env fl jn e a w hok
  rw [hrew]
  unfold scaleReward
  constructor
  · intro h; rw [if_pos h]
  · intro h; rw [h]; rfl

/-- Witness for C2: scale 2 and raw reward 1/2 give reward 1; with scale
0 the raw reward 1/2 is returned as it is. -/
theorem reward_scaling_witness :
    (Env.Step ratFloat obsJoiner demoEnv []
      (okStep (1 / 2) false [2, 2, 2])).reward = 1 ∧
    (Env.Step ratFloat obsJoiner { demoEnv with RewardScale := 0 } []
      (okStep (1 / 2) false [2, 2, 2])).reward = 1 / 2 := by
  constructor
  · have h := (reward_scaling ratFloat obsJoiner demoEnv []
      (okStep (1 / 2) false [2, 2, 2]) (by decide)).1 (by decide)
    rw [h]
    simp [ratFloat, StepWorld.raw, okStep, demoEnv]
  · exact (reward_scaling ratFloat obsJoiner
      { demoEnv with RewardScale := 0 } []
      (okStep (1 / 2) false [2, 2, 2]) (by decide)).2 (by decide)

/-- C4 (error short-circuit values).  For every `Env.Step` in which
`RawEnv.Step` succeeds with `(r, d)` but `RawEnv.Observe` or
`Observer.ObsVec` then fails, `Env.Step` returns a non-nil error
together with the reward `r` after reward scaling (`r * RewardScale`
when `RewardScale != 0`, `r` when it is zero) and `done = d`:
truncation is not applied, whatever the counter and `MaxSteps` are. -/
theorem error_short_circuit (fl : Float64 F) (jn : Joiner J F) (e : Env F J)
    (a : List F) (w : StepWorld F E O V)
    (hraw : (w.raw e a).err = none)
    (hfail : (∃ x, w.rawObserve = Except.error x) ∨
      (∃ rawObs x, w.rawObserve = Except.ok rawObs ∧
        w.obsVec rawObs = Except.error x)) :
    (Env.Step fl jn e a w).err ≠ none ∧
    (fl.neZero e.RewardScale = true →
      (Env.Step fl jn e a w).reward
        = fl.mul (w.raw e a).reward e.RewardScale) ∧
    (fl.neZero e.RewardScale = false →
      (Env.Step fl jn e a w).reward = (w.raw e a).reward) ∧
    (Env.Step fl jn e a w).done = (w.raw e a).done := by
  have hsc : (fl.neZero e.RewardScale = true →
        scaleReward fl e.RewardScale (w.raw e a).reward
          = fl.mul (w.raw e a).reward e.RewardScale) ∧
      (fl.neZero e.RewardScale = false →
        scaleReward fl e.RewardScale (w.raw e a).reward
          = (w.raw e a).reward) := by
    unfold scaleReward
    constructor
    · intro h; rw [if_pos h]
    · intro h; rw [h]; rfl
  rcases Env.Step_cases fl jn e a w with
    ⟨x, hr, _⟩ | ⟨x, _, _, hs⟩ | ⟨o, x, _, _, _, hs⟩ | ⟨o, v, _, ho, hv, _⟩
  · rw [hraw] at hr; cases hr
  · rw [hs]
    exact ⟨Option.some_ne_none x, hsc.1, hsc.2, rfl⟩
  · rw [hs]
    exact ⟨Option.some_ne_none x, hsc.1, hsc.2, rfl⟩
  · rcases hfail with ⟨x, hx⟩ | ⟨o2, x, ho2, hx⟩
    · rw [hx] at ho; cases ho
    · rw [ho2] at ho
      cases ho
      rw [hx] at hv
      cases hv

/-- Witness for C4: at the last step before truncation (`MaxSteps` = 2,
counter 1), raw result `(1/2, false)` and a failing observer give an
error with reward 1 (scale 2) and `done = false`; with scale 0 the
reward returned with the error is 1/2. -/
theorem error_short_circuit_witness :
    (Env.Step ratFloat obsJoiner { demoEnv with timestep := 1 } []
      (badObsStep (1 / 2) false)).err ≠ none ∧
    (Env.Step ratFloat obsJoiner { demoEnv with timestep := 1 } []
      (badObsStep (1 / 2) false)).reward = 1 ∧
    (Env.Step ratFloat obsJoiner { demoEnv with timestep := 1 } []
      (badObsStep (1 / 2) false)).done = false ∧
    (Env.Step ratFloat obsJoiner
      { demoEnv with timestep := 1, RewardScale := 0 } []
      (badObsStep (1 / 2) false)).reward = 1 / 2 := by
  have h := error_short_circuit ratFloat obsJoiner
    { demoEnv with timestep := 1 } [] (badObsStep (1 / 2) false) rfl
    (Or.inr ⟨0, Error.ext "bad pixels", rfl, rfl⟩)
  have h0 := error_short_circuit ratFloat obsJoiner
    { demoEnv with timestep := 1, RewardScale := 0 } []
    (badObsStep (1 / 2) false) rfl
    (Or.inr ⟨0, Error.ext "bad pixels", rfl, rfl⟩)
  refine ⟨h.1, ?_, h.2.2.2, h0.2.2.1 (by decide)⟩
  rw [h.2.1 (by decide)]
  simp [ratFloat, StepWorld.raw, badObsStep, demoEnv]

/-- C9 (truncation overrides but never downgrades).  For every successful
`Env.Step` with raw done signal `d` and counter `t` before the call, the
returned `done` is `d OR t + 1 >= MaxSteps`, where `t + 1` is the counter
after `e.timestep++` (`incr t`, which is the integer `t + 1` for every
`t` below the largest `int`).  In particular a raw `done = true` is
always returned as `true`, and reaching `MaxSteps` returns `true`
whatever `d` is. -/
theorem truncation_overrides (fl : Float64 F) (jn : Joiner J F)
    (e : Env F J) (a : List F) (w : StepWorld F E O V)
    (hok : (Env.Step fl jn e a w).err = none) :
    (Env.Step fl jn e a w).done
      = ((w.raw e a).done || decide (incr e.timestep ≥ e.MaxSteps)) ∧
    ((w.raw e a).done = true → (Env.Step fl jn e a w).done = true) ∧
    (incr e.timestep ≥ e.MaxSteps → (Env.Step fl jn e a w).done = true) ∧
    (minInt ≤ e.timestep → e.timestep < maxInt →
      incr e.timestep = e.timestep + 1 ∧
      (Env.Step fl jn e a w).done
        = ((w.raw e a).done || decide (e.timestep + 1 ≥ e.MaxSteps))) := by
  obtain ⟨_, hdone, _⟩ := Env.Step_ok_env fl jn e a w hok
  have hmain : (Env.Step fl jn e a w).done
      = ((w.raw e a).done || decide (incr e.timestep ≥ e.MaxSteps)) := by
    rw [hdone]
    by_cases h : incr e.timestep ≥ e.MaxSteps
    · simp [h]
    · simp [h]
  refine ⟨hmain, ?_, ?_, ?_⟩
  · intro hd; rw [hmain, hd]; rfl
  · intro ht; rw [hmain]; simp [ht]
  · intro hlo hhi
    have hinc := incr_of_lt hlo hhi
    refine ⟨hinc, ?_⟩
    rw [hmain, hinc]

/-- Witness for C9: with `MaxSteps` = 2 and counter 1, a successful step
whose raw `done` is false returns `done = true`; with counter 0 and raw
`done = true` it returns `true` as well. -/
theorem truncation_overrides_witness :
    (Env.Step ratFloat obsJoiner { demoEnv with timestep := 1 } []
      (okStep (1 / 2) false [2, 2, 2])).done = true ∧
    (Env.Step ratFloat obsJoiner { demoEnv with timestep := 0 } []
      (okStep (1 / 2) true [2, 2, 2])).done = true :=
  ⟨(truncation_overrides ratFloat obsJoiner { demoEnv with timestep := 1 }
      [] (okStep (1 / 2) false [2, 2, 2]) (by decide)).2.2.1 (by decide),
   (truncation_overrides ratFloat obsJoiner { demoEnv with timestep := 0 }
      [] (okStep (1 / 2) true [2, 2, 2]) (by decide)).2.1 (by decide)⟩

/-- C3 (history fill and FIFO at the level of the adapter), with the
history joiner behaving as the spec describes it.  For every H ≥ 1 and
every sequence of observer vectors `v0, v1, ..., vk`: a successful
`Env.Reset` that observes `v0` returns `v0` repeated H times and
concatenated, and the `i`-th subsequent successful `Env.Step` (observing
`vi`) returns the concatenation, oldest first, of the last H elements of
`[v0 repeated H times, v1, ..., vi]`. -/
theorem history_fill_fifo (fl : Float64 F) (e : Env F (ObsJoiner F))
    (w0 : ResetWorld F E O) (v0 : List F)
    (steps : List (List F × StepWorld F E O V)) (vs : List (List F))
    (hH : 1 ≤ e.joiner.HistorySize)
    (hreset : (Env.Reset obsJoiner e w0 :
      ResetResult F E O V (ObsJoiner F)).err = none)
    (hv0 : observes w0.rawObserve w0.obsVec v0)
    (hok : ∀ r ∈ Env.Steps fl obsJoiner
      (Env.Reset obsJoiner e w0 : ResetResult F E O V (ObsJoiner F)).env
      steps, r.err = none)
    (hvs : List.Forall₂ (fun s v => observes s.2.rawObserve s.2.obsVec v)
      steps vs) :
    (Env.Reset obsJoiner e w0 : ResetResult F E O V (ObsJoiner F)).obs
      = (List.replicate e.joiner.HistorySize v0).flatten ∧
    ∀ i, i < steps.length →
      ((Env.Steps fl obsJoiner
        (Env.Reset obsJoiner e w0 :
          ResetResult F E O V (ObsJoiner F)).env steps)[i]?).map
          (fun r => r.obs)
        = some (lastN e.joiner.HistorySize
            (List.replicate e.joiner.HistorySize v0
              ++ vs.take (i + 1))).flatten := by
  obtain ⟨o, ho, hv⟩ := hv0
  rcases Env.Reset_cases (V := V) obsJoiner e w0 with
    ⟨x, _, hs⟩ | ⟨x, _, _, hs⟩ | ⟨o2, x, _, _, _, hs⟩ | ⟨o2, v2, _, ho2, hv2, hs⟩
  · rw [hs] at hreset; cases hreset
  · rw [hs] at hreset; cases hreset
  · rw [hs] at hreset; cases hreset
  · rw [ho] at ho2
    cases ho2
    rw [hv] at hv2
    cases hv2
    have hwin : (obsJoiner.Step (obsJoiner.Reset e.joiner v0) v0)
        = ({ e.joiner with
              history := List.replicate e.joiner.HistorySize v0 },
            (List.replicate e.joiner.HistorySize v0).flatten) := by
      simp only [obsJoiner, ObsJoiner.Step, ObsJoiner.Reset]
      rw [replicate_drop_one_snoc _ v0 hH]
    have henv : (Env.Reset obsJoiner e w0 :
        ResetResult F E O V (ObsJoiner F)).env
        = { e with
            timestep := 0,
            joiner := { e.joiner with
              history := List.replicate e.joiner.HistorySize v0 } } := by
      rw [hs, hwin]
    have hobs : (Env.Reset obsJoiner e w0 :
        ResetResult F E O V (ObsJoiner F)).obs
        = (List.replicate e.joiner.HistorySize v0).flatten := by
      rw [hs, hwin]
    refine ⟨hobs, ?_⟩
    intro i hi
    rw [henv] at hok ⊢
    exact Env.Steps_obs fl steps vs
      { e with
        timestep := 0,
        joiner := { e.joiner with
          history := List.replicate e.joiner.HistorySize v0 } }
      (List.replicate e.joiner.HistorySize v0)
      (by simp [lastN]) hH (by simp) hok hvs i hi

/-- Witness for C3 in the concrete scenario (H = 3): `Reset` observing
`[1]` returns `[1, 1, 1]`; the following steps observing `[2]` and `[3]`
return `[1, 1, 2]` and `[1, 2, 3]`. -/
theorem history_fill_fifo_witness :
    (Env.Reset obsJoiner demoEnv (okReset [1]) :
      ResetResult ℚ String Nat Nat (ObsJoiner ℚ)).obs = [1, 1, 1] ∧
    ((Env.Steps ratFloat obsJoiner
        (Env.Reset obsJoiner demoEnv (okReset [1]) :
          ResetResult ℚ String Nat Nat (ObsJoiner ℚ)).env
        [([], okStep (1 / 2) false [2]), ([], okStep (1 / 2) false [3])])[0]?).map
        (fun r => r.obs) = some [1, 1, 2] ∧
    ((Env.Steps ratFloat obsJoiner
        (Env.Reset obsJoiner demoEnv (okReset [1]) :
          ResetResult ℚ String Nat Nat (ObsJoiner ℚ)).env
        [([], okStep (1 / 2) false [2]), ([], okStep (1 / 2) false [3])])[1]?).map
        (fun r => r.obs) = some [1, 2, 3] := by
  have h := history_fill_fifo ratFloat demoEnv (okReset [1]) [1]
    [([], okStep (1 / 2) false [2]), ([], okStep (1 / 2) false [3])]
    [[2], [3]] (by decide) (by rfl) ⟨0, rfl, rfl⟩ (by decide)
    (List.Forall₂.cons ⟨0, rfl, rfl⟩
      (List.Forall₂.cons ⟨0, rfl, rfl⟩ List.Forall₂.nil))
  exact ⟨h.1, h.2 0 (by decide), h.2 1 (by decide)⟩

/-- C5, counterexample.  The claim says a failing `Env.Step` returns
reward 0 and `done = false`.  With scale 2, a raw step answering
`(1/2, true, nil)` and a failing observer, `Env.Step` returns a non-nil
error together with reward 1 and `done = true`. -/
theorem zero_values_on_failure_counterexample :
    (Env.Step ratFloat obsJoiner demoEnv [] (badObsStep (1 / 2) true)).err
      ≠ none ∧
    (Env.Step ratFloat obsJoiner demoEnv []
      (badObsStep (1 / 2) true)).reward = 1 ∧
    (Env.Step ratFloat obsJoiner demoEnv []
      (badObsStep (1 / 2) true)).reward ≠ 0 ∧
    (Env.Step ratFloat obsJoiner demoEnv []
      (badObsStep (1 / 2) true)).done = true := by
  refine ⟨by decide, ?_, ?_, by decide⟩
  · simp [Env.Step, badObsStep, demoEnv, scaleReward, ratFloat]
  · simp [Env.Step, badObsStep, demoEnv, scaleReward, ratFloat]

/-- C5, amended.  Whenever `Env.Reset` or `Env.Step` returns a non-nil
error, the observation returned with it is empty (nil).  For `Step` the
reward and `done` are not zeroed: `done` is the raw environment's flag,
and the reward is the raw reward, as `RawEnv.Step` returned it when
`RawEnv.Step` itself failed, and after reward scaling otherwise
(`r * RewardScale` when `RewardScale != 0`, `r` when it is zero). -/
theorem results_on_failure (fl : Float64 F) (jn : Joiner J F) (e : Env F J) :
    (∀ w : ResetWorld F E O,
      (Env.Reset jn e w : ResetResult F E O V J).err ≠ none →
      (Env.Reset jn e w : ResetResult F E O V J).obs = []) ∧
    (∀ (a : List F) (w : StepWorld F E O V),
      (Env.Step fl jn e a w).err ≠ none →
      (Env.Step fl jn e a w).obs = [] ∧
      (Env.Step fl jn e a w).done = (w.raw e a).done ∧
      ((w.raw e a).err ≠ none →
        (Env.Step fl jn e a w).reward = (w.raw e a).reward) ∧
      ((w.raw e a).err = none → fl.neZero e.RewardScale = true →
        (Env.Step fl jn e a w).reward
          = fl.mul (w.raw e a).reward e.RewardScale) ∧
      ((w.raw e a).err = none → fl.neZero e.RewardScale = false →
        (Env.Step fl jn e a w).reward = (w.raw e a).reward)) := by
  constructor
  · intro w herr
    rcases Env.Reset_cases (V := V) jn e w with
      ⟨x, _, hs⟩ | ⟨x, _, _, hs⟩ | ⟨o, x, _, _, _, hs⟩ | ⟨o, v, _, _, _, hs⟩
    · rw [hs]
    · rw [hs]
    · rw [hs]
    · rw [hs] at herr; exact absurd rfl herr
  · intro a w herr
    have hsc : (fl.neZero e.RewardScale = true →
          scaleReward fl e.RewardScale (w.raw e a).reward
            = fl.mul (w.raw e a).reward e.RewardScale) ∧
        (fl.neZero e.RewardScale = false →
          scaleReward fl e.RewardScale (w.raw e a).reward
            = (w.raw e a).reward) := by
      unfold scaleReward
      constructor
      · intro h; rw [if_pos h]
      · intro h; rw [h]; rfl
    rcases Env.Step_cases fl jn e a w with
      ⟨x, hr, hs⟩ | ⟨x, hr, _, hs⟩ | ⟨o, x, hr, _, _, hs⟩ | ⟨o, v, _, _, _, hs⟩
    · rw [hs]
      refine ⟨rfl, rfl, fun _ => rfl, ?_, ?_⟩
      · intro h; rw [hr] at h; cases h
      · intro h; rw [hr] at h; cases h
    · rw [hs]
      exact ⟨rfl, rfl, fun h => absurd hr h, fun _ => hsc.1, fun _ => hsc.2⟩
    · rw [hs]
      exact ⟨rfl, rfl, fun h => absurd hr h, fun _ => hsc.1, fun _ => hsc.2⟩
    · rw [hs] at herr; exact absurd rfl herr

/-- Witness for the amended C5: a `Reset` whose `Observe` fails returns
an empty observation; a `Step` whose raw step fails returns an empty
observation and the raw `done`; a `Step` whose observer fails after a
raw step answering `(1/2, true, nil)` returns reward 1 (scale 2) and
`done = true`. -/
theorem results_on_failure_witness :
    (Env.Reset obsJoiner demoEnv badReset :
      ResetResult ℚ String Nat Nat (ObsJoiner ℚ)).obs = [] ∧
    (Env.Step ratFloat obsJoiner demoEnv [] badRawStep).obs = [] ∧
    (Env.Step ratFloat obsJoiner demoEnv [] badRawStep).done = false ∧
    (Env.Step ratFloat obsJoiner demoEnv []
      (badObsStep (1 / 2) true)).reward = 1 ∧
    (Env.Step ratFloat obsJoiner demoEnv []
      (badObsStep (1 / 2) true)).done = true := by
  have hr := (results_on_failure (E := String) (O := Nat) (V := Nat)
    ratFloat obsJoiner demoEnv).1 badReset (by decide)
  have hs := (results_on_failure (E := String) (O := Nat) (V := Nat)
    ratFloat obsJoiner demoEnv).2 [] badRawStep (by decide)
  have ho := (results_on_failure (E := String) (O := Nat) (V := Nat)
    ratFloat obsJoiner demoEnv).2 [] (badObsStep (1 / 2) true) (by decide)
  refine ⟨hr, hs.1, hs.2.1, ?_, ho.2.1⟩
  rw [ho.2.2.2.1 rfl (by decide)]
  simp [ratFloat, StepWorld.raw, badObsStep, demoEnv]

/-- C6, counterexample.  The claim says an error returned by `Env.Step`
is never the bare error of `RawEnv.Step`.  When `RawEnv.Step` fails
with the error `disconnected`, `Env.Step` returns exactly that error,
without a `CtxError` around it. -/
theorem stage_label_counterexample :
    (badRawStep.raw demoEnv []).err = some (Error.ext "disconnected") ∧
    (Env.Step ratFloat obsJoiner demoEnv [] badRawStep).err
      = some (Error.ext "disconnected") := by
  constructor
  · rfl
  · rfl

/-- C6, amended.  Every non-nil error returned by `Env.Reset` is the
error of the stage that failed (`RawEnv.Reset`, `RawEnv.Observe` or
`Observer.ObsVec`) wrapped once with the context `reset`, and otherwise
unmodified.  Every non-nil error returned by `Env.Step` is the error of
`RawEnv.Step`, `RawEnv.Observe` or `Observer.ObsVec` itself, with no
label added. -/
theorem error_labels (fl : Float64 F) (jn : Joiner J F) (e : Env F J) :
    (∀ (w : ResetWorld F E O) (x : Error E),
      (Env.Reset jn e w : ResetResult F E O V J).err = some x →
      ∃ u, x = Error.ctx "reset" u ∧
        (w.rawReset = some u ∨ w.rawObserve = Except.error u ∨
          ∃ rawObs, w.rawObserve = Except.ok rawObs ∧
            w.obsVec rawObs = Except.error u)) ∧
    (∀ (a : List F) (w : StepWorld F E O V) (x : Error E),
      (Env.Step fl jn e a w).err = some x →
      ((w.raw e a).err = some x ∨ w.rawObserve = Except.error x ∨
        ∃ rawObs, w.rawObserve = Except.ok rawObs ∧
          w.obsVec rawObs = Except.error x)) := by
  constructor
  · intro w x herr
    rcases Env.Reset_cases (V := V) jn e w with
      ⟨u, hr, hs⟩ | ⟨u, _, ho, hs⟩ | ⟨o, u, _, ho, hv, hs⟩ |
      ⟨o, v, _, _, _, hs⟩
    · rw [hs] at herr
      cases herr
      exact ⟨u, rfl, Or.inl hr⟩
    · rw [hs] at herr
      cases herr
      exact ⟨u, rfl, Or.inr (Or.inl ho)⟩
    · rw [hs] at herr
      cases herr
      exact ⟨u, rfl, Or.inr (Or.inr ⟨o, ho, hv⟩)⟩
    · rw [hs] at herr; cases herr
  · intro a w x herr
    rcases Env.Step_cases fl jn e a w with
      ⟨u, hr, hs⟩ | ⟨u, _, ho, hs⟩ | ⟨o, u, _, ho, hv, hs⟩ |
      ⟨o, v, _, _, _, hs⟩
    · rw [hs] at herr
      cases herr
      exact Or.inl hr
    · rw [hs] at herr
      cases herr
      exact Or.inr (Or.inl ho)
    · rw [hs] at herr
      cases herr
      exact Or.inr (Or.inr ⟨o, ho, hv⟩)
    · rw [hs] at herr; cases herr

/-- Witness for the amended C6: a `Reset` whose `Observe` fails with
`no frame` returns that error under the context `reset`. -/
theorem error_labels_witness :
    ∃ u, Error.ctx "reset" (Error.ext "no frame") = Error.ctx "reset" u ∧
      (badReset.rawReset = some u ∨ badReset.rawObserve = Except.error u ∨
        ∃ rawObs, badReset.rawObserve = Except.ok rawObs ∧
          badReset.obsVec rawObs = Except.error u) :=
  (error_labels (V := Nat) ratFloat obsJoiner demoEnv).1 badReset
    (Error.ctx "reset" (Error.ext "no frame")) rfl

/-- C7 (fail-fast, never swallowed).  `Env.Reset` returns a non-nil error
if and only if one of `RawEnv.Reset`, `RawEnv.Observe`,
`Observer.ObsVec` fails, and `Env.Step` returns a non-nil error if and
only if one of `RawEnv.Step`, `RawEnv.Observe`, `Observer.ObsVec` fails.
In each case the returned error comes from the first stage that failed
in that order, and the calls made end with the failing one: no later
stage and no joiner method is invoked. -/
theorem fail_fast (fl : Float64 F) (jn : Joiner J F) (e : Env F J) :
    (∀ w : ResetWorld F E O,
      ((Env.Reset jn e w : ResetResult F E O V J).err ≠ none ↔
        (w.rawReset ≠ none ∨ (∃ x, w.rawObserve = Except.error x) ∨
          ∃ rawObs x, w.rawObserve = Except.ok rawObs ∧
            w.obsVec rawObs = Except.error x)) ∧
      (∀ x, w.rawReset = some x →
        (Env.Reset jn e w : ResetResult F E O V J).err
          = some (Error.ctx "reset" x) ∧
        (Env.Reset jn e w : ResetResult F E O V J).calls
          = [Call.actorReset, Call.rawReset]) ∧
      (∀ x, w.rawReset = none → w.rawObserve = Except.error x →
        (Env.Reset jn e w : ResetResult F E O V J).err
          = some (Error.ctx "reset" x) ∧
        (Env.Reset jn e w : ResetResult F E O V J).calls
          = [Call.actorReset, Call.rawReset, Call.rawObserve]) ∧
      (∀ rawObs x, w.rawReset = none → w.rawObserve = Except.ok rawObs →
        w.obsVec rawObs = Except.error x →
        (Env.Reset jn e w : ResetResult F E O V J).err
          = some (Error.ctx "reset" x) ∧
        (Env.Reset jn e w : ResetResult F E O V J).calls
          = [Call.actorReset, Call.rawReset, Call.rawObserve,
             Call.obsVec rawObs])) ∧
    (∀ (a : List F) (w : StepWorld F E O V),
      ((Env.Step fl jn e a w).err ≠ none ↔
        ((w.raw e a).err ≠ none ∨ (∃ x, w.rawObserve = Except.error x) ∨
          ∃ rawObs x, w.rawObserve = Except.ok rawObs ∧
            w.obsVec rawObs = Except.error x)) ∧
      (∀ x, (w.raw e a).err = some x →
        (Env.Step fl jn e a w).err = some x ∧
        (Env.Step fl jn e a w).calls
          = [Call.actorEvents a,
             Call.rawStep e.FrameTime (w.actorEvents a)]) ∧
      (∀ x, (w.raw e a).err = none → w.rawObserve = Except.error x →
        (Env.Step fl jn e a w).err = some x ∧
        (Env.Step fl jn e a w).calls
          = [Call.actorEvents a,
             Call.rawStep e.FrameTime (w.actorEvents a),
             Call.rawObserve]) ∧
      (∀ rawObs x, (w.raw e a).err = none →
        w.rawObserve = Except.ok rawObs →
        w.obsVec rawObs = Except.error x →
        (Env.Step fl jn e a w).err = some x ∧
        (Env.Step fl jn e a w).calls
          = [Call.actorEvents a,
             Call.rawStep e.FrameTime (w.actorEvents a),
             Call.rawObserve, Call.obsVec rawObs])) := by
  constructor
  · intro w
    rcases Env.Reset_cases (V := V) jn e w with
      ⟨u, hr, hs⟩ | ⟨u, hr, ho, hs⟩ | ⟨o, u, hr, ho, hv, hs⟩ |
      ⟨o, v, hr, ho, hv, hs⟩
    · rw [hs]
      simp [hr]
    · rw [hs]
      simp [hr, ho]
    · rw [hs]
      simp only [hr, ho]
      refine ⟨?_, ?_, ?_, ?_⟩
      · simp [hv]
      · simp
      · simp
      · intro o2 x _ h2 hx
        cases h2
        rw [hv] at hx
        cases hx
        exact ⟨rfl, rfl⟩
    · rw [hs]
      simp only [hr, ho]
      refine ⟨?_, ?_, ?_, ?_⟩
      · simp [hv]
      · simp
      · simp
      · intro o2 x _ h2 hx
        cases h2
        rw [hv] at hx
        cases hx
  · intro a w
    rcases Env.Step_cases fl jn e a w with
      ⟨u, hr, hs⟩ | ⟨u, hr, ho, hs⟩ | ⟨o, u, hr, ho, hv, hs⟩ |
      ⟨o, v, hr, ho, hv, hs⟩
    · rw [hs]
      simp [hr]
    · rw [hs]
      simp [hr, ho]
    · rw [hs]
      simp only [hr, ho]
      refine ⟨?_, ?_, ?_, ?_⟩
      · simp [hv]
      · simp
      · simp
      · intro o2 x _ h2 hx
        cases h2
        rw [hv] at hx
        cases hx
        exact ⟨rfl, rfl⟩
    · rw [hs]
      simp only [hr, ho]
      refine ⟨?_, ?_, ?_, ?_⟩
      · simp [hv]
      · simp
      · simp
      · intro o2 x _ h2 hx
        cases h2
        rw [hv] at hx
        cases hx

/-- Witness for C7: when `RawEnv.Step` fails, `Env.Step` returns its
error after calling only `Actor.Events` and `RawEnv.Step`. -/
theorem fail_fast_witness :
    (Env.Step ratFloat obsJoiner demoEnv [] badRawStep).err
      = some (Error.ext "disconnected") ∧
    (Env.Step ratFloat obsJoiner demoEnv [] badRawStep).calls
      = [Call.actorEvents [], Call.rawStep 100 []] :=
  ((fail_fast (V := Nat) ratFloat obsJoiner demoEnv).2 [] badRawStep).2.1
    (Error.ext "disconnected") rfl

/-- C8 (history window atomicity on error).  For every call of
`Env.Step` or `Env.Reset` that returns a non-nil error, whichever stage
failed, the joiner (and so its window) after the call is the joiner
before the call, and no joiner method was invoked. -/
theorem window_atomicity (fl : Float64 F) (jn : Joiner J F) (e : Env F J) :
    (∀ w : ResetWorld F E O,
      (Env.Reset jn e w : ResetResult F E O V J).err ≠ none →
      (Env.Reset jn e w : ResetResult F E O V J).env.joiner = e.joiner ∧
      ∀ v, Call.joinerReset v ∉
          (Env.Reset jn e w : ResetResult F E O V J).calls ∧
        Call.joinerStep v ∉
          (Env.Reset jn e w : ResetResult F E O V J).calls) ∧
    (∀ (a : List F) (w : StepWorld F E O V),
      (Env.Step fl jn e a w).err ≠ none →
      (Env.Step fl jn e a w).env.joiner = e.joiner ∧
      ∀ v, Call.joinerReset v ∉ (Env.Step fl jn e a w).calls ∧
        Call.joinerStep v ∉ (Env.Step fl jn e a w).calls) := by
  constructor
  · intro w herr
    rcases Env.Reset_cases (V := V) jn e w with
      ⟨x, _, hs⟩ | ⟨x, _, _, hs⟩ | ⟨o, x, _, _, _, hs⟩ | ⟨o, v, _, _, _, hs⟩
    · rw [hs]; simp
    · rw [hs]; simp
    · rw [hs]; simp
    · rw [hs] at herr; exact absurd rfl herr
  · intro a w herr
    rcases Env.Step_cases fl jn e a w with
      ⟨x, _, hs⟩ | ⟨x, _, _, hs⟩ | ⟨o, x, _, _, _, hs⟩ | ⟨o, v, _, _, _, hs⟩
    · rw [hs]; simp
    · rw [hs]; simp
    · rw [hs]; simp
    · rw [hs] at herr; exact absurd rfl herr

/-- Witness for C8: a `Step` with a failing observer and a `Reset` with a
failing `Observe` both leave the window `[[9]]` of the scenario as it
was. -/
theorem window_atomicity_witness :
    (Env.Step ratFloat obsJoiner demoEnv []
      (badObsStep (1 / 2) false)).env.joiner = demoEnv.joiner ∧
    (Env.Reset obsJoiner demoEnv badReset :
      ResetResult ℚ String Nat Nat (ObsJoiner ℚ)).env.joiner
      = demoEnv.joiner :=
  ⟨((window_atomicity ratFloat obsJoiner demoEnv).2 []
      (badObsStep (1 / 2) false) (by decide)).1,
   ((window_atomicity ratFloat obsJoiner demoEnv).1 badReset
      (by decide)).1⟩

/-- C10 (timestep counter invariant).  After any sequence of `Env.Reset`
and `Env.Step` calls that contains at least one `Reset`, the counter is
the number of successful `Env.Step` calls made since the most recent
`Env.Reset` call (held in a 64-bit `int`, so equal to that number as
long as it does not exceed `maxInt`).  Every `Reset`, failing or not,
sets the counter to 0; every successful `Step` increments it once; every
failing `Step` leaves it unchanged. -/
theorem timestep_counter (fl : Float64 F) (jn : Joiner J F) (e : Env F J)
    (ops : List (Op F E O V)) (hreset : ∃ w, Op.reset w ∈ ops) :
    (Env.run fl jn e ops).1.timestep
      = wrapInt (stepsSinceReset (Env.run fl jn e ops).2) ∧
    ((stepsSinceReset (Env.run fl jn e ops).2 : Int) ≤ maxInt →
      (Env.run fl jn e ops).1.timestep
        = stepsSinceReset (Env.run fl jn e ops).2) ∧
    (∀ (e1 : Env F J) (w : ResetWorld F E O),
      (Env.Reset jn e1 w : ResetResult F E O V J).env.timestep = 0) ∧
    (∀ (e1 : Env F J) (a : List F) (w : StepWorld F E O V),
      (Env.Step fl jn e1 a w).err = none →
      (Env.Step fl jn e1 a w).env.timestep = incr e1.timestep ∧
      (minInt ≤ e1.timestep → e1.timestep < maxInt →
        (Env.Step fl jn e1 a w).env.timestep = e1.timestep + 1)) ∧
    (∀ (e1 : Env F J) (a : List F) (w : StepWorld F E O V),
      (Env.Step fl jn e1 a w).err ≠ none →
      (Env.Step fl jn e1 a w).env.timestep = e1.timestep) := by
  have hmain := Env.run_timestep fl jn e ops hreset
  refine ⟨hmain, ?_, ?_, ?_, ?_⟩
  · intro hle
    rw [hmain]
    apply wrapInt_of_range _ hle
    unfold minInt
    omega
  · intro e1 w
    exact (Env.Reset_config jn e1 w).2.2
  · intro e1 a w hok
    have ht := (Env.Step_ok_env fl jn e1 a w hok).1
    refine ⟨ht, ?_⟩
    intro hlo hhi
    rw [ht]
    exact incr_of_lt hlo hhi
  · intro e1 a w herr
    rw [Env.Step_err_env fl jn e1 a w herr]

/-- Witness for C10: from a prior counter of 7, the calls failing
`Reset`, `Reset`, `Step`, failing `Step`, `Step` leave the counter at 2,
the number of successful steps since the last `Reset`. -/
theorem timestep_counter_witness :
    stepsSinceReset (Env.run ratFloat obsJoiner demoEnv demoOps).2 = 2 ∧
    (Env.run ratFloat obsJoiner demoEnv demoOps).1.timestep = 2 := by
  have h := (timestep_counter ratFloat obsJoiner demoEnv demoOps
    ⟨badReset, List.mem_cons_self _ _⟩).2.1 (by decide)
  exact ⟨by decide, h⟩

end Claims

end MuniverseAgent
